import Mathlib

/-!
# Verification of the godash Sampler / Render Scheduler core

Shallow embedding of the metrics collector (`internal/metrics`, the
`SystemCollector`), the terminal UI render loop (`internal/tui/monitor.go`)
and the monitor entry point (`cmd/godash/core/core.go`).

Conventions of the embedding:
* Go `time.Duration` and `time.Time` are nanosecond counts modelled as `Int`
  (Go stores both as 64-bit nanosecond values).
* Go `uint64` values are modelled as `Nat`; where the source can overflow
  (the cumulative-counter subtraction in `collectNetworkMetrics`) the
  wraparound is made explicit with `% 2^64`.
* Go `float64` values are modelled by the exact rational (`ℚ`) they
  denote; every operation of the network-rate data path (`uint64`/int64 to
  `float64` conversion, division, addition, `Duration.Seconds()`) is
  modelled as the exact result rounded to the nearest IEEE-754 binary64
  value, ties to even. On this data path every intermediate value is zero
  or a normal double (magnitudes lie within roughly `[1e-10, 2^94]`), so
  subnormals and overflow to infinity cannot arise and are not modelled.
  The Go conversion `uint64(x)` truncates toward zero; for values out of
  `uint64` range its result is implementation-specific (Go spec), supplied
  here by the platform parameter `oobConv` carried in `NetState`.
  Percentages in `MemoryStat` remain idealized exact rationals: the
  `[0,100]` bound of C7 is monotone and unaffected by rounding.
* Fallible provider reads (`gopsutil` calls) are `Except String` values.
* Go maps keyed by strings are modelled as functions `String → Option _`,
  updated pointwise in the iteration order of the source loops.
-/

namespace Godash

/-- The constant `2^64`, the modulus of Go's `uint64` arithmetic. -/
def U64 : Nat := 18446744073709551616

/-- Go `uint64` subtraction `a - b`: wraps modulo `2^64`. -/
def u64sub (a b : Nat) : Nat := (a + U64 - b) % U64

/-- Nanoseconds in `100 * time.Millisecond`. -/
def ms100 : Int := 100000000

/-- Nanoseconds in `5 * time.Second`. -/
def fiveSecondsNs : Int := 5000000000

/-- Nanoseconds in `30 * time.Second`. -/
def thirtySecondsNs : Int := 30000000000

/-- Nanoseconds in one second. -/
def secondNs : Int := 1000000000

/-! ## IEEE-754 binary64 model

Executable rounding to the nearest double, sufficient for every value the
network-rate data path can produce (zero or normal doubles). -/

/-- Fuel-driven binary logarithm: `natLog2Aux fuel n` halves `n` until it
reaches 1, so with enough fuel it is the floor of log base 2. -/
def natLog2Aux : Nat → Nat → Nat
  | 0, _ => 0
  | fuel + 1, n => if n ≤ 1 then 0 else natLog2Aux fuel (n / 2) + 1

/-- Floor of log base 2 of a positive natural (correct below `2^256`,
far beyond every magnitude this data path produces). -/
def natLog2 (n : Nat) : Nat := natLog2Aux 256 n

/-- Ceiling of log base 2 of a positive natural. -/
def natClog2 (n : Nat) : Nat := if n ≤ 1 then 0 else natLog2 (n - 1) + 1

/-- Floor of log base 2 of a positive rational. -/
def log2floor (q : ℚ) : Int :=
  if 1 ≤ q then (natLog2 ⌊q⌋.toNat : Int)
  else -(natClog2 ⌈q⁻¹⌉.toNat : Int)

/-- Round a nonnegative rational to the nearest IEEE-754 binary64 value,
ties to even: the nearest multiple of the unit in the last place
`2 ^ (⌊log2 q⌋ - 52)`. Faithful for zero and the normal range, which is
all this data path produces. -/
def roundF64 (q : ℚ) : ℚ :=
  if q ≤ 0 then 0
  else
    let u : ℚ := 2 ^ (log2floor q - 52)
    let n : Int := ⌊q / u⌋
    let r : ℚ := q / u - (n : ℚ)
    if r < 1 / 2 then (n : ℚ) * u
    else if 1 / 2 < r then ((n : ℚ) + 1) * u
    else if n % 2 = 0 then (n : ℚ) * u else ((n : ℚ) + 1) * u

/-- Sign-symmetric extension of `roundF64` (IEEE-754 rounding is
symmetric under negation). -/
def f64round (q : ℚ) : ℚ := if q < 0 then -roundF64 (-q) else roundF64 q

/-- Go conversion of an integer (int64 or uint64 value) to `float64`:
round to nearest, ties to even. -/
def f64ofInt (i : Int) : ℚ := f64round (i : ℚ)

/-- IEEE-754 binary64 division: the exact quotient, correctly rounded. -/
def fdiv (a b : ℚ) : ℚ := f64round (a / b)

/-- IEEE-754 binary64 addition: the exact sum, correctly rounded. -/
def fadd (a b : ℚ) : ℚ := f64round (a + b)

/-- Go `time.Duration.Seconds()` as implemented in the standard library:
`float64(d / Second) + float64(d % Second) / 1e9`, with Go's truncating
integer division and remainder and IEEE-754 binary64 conversion, division
and addition (the constant `1e9` is exactly representable). -/
def goSeconds (d : Int) : ℚ :=
  fadd (f64ofInt (Int.tdiv d 1000000000))
    (fdiv (f64ofInt (Int.tmod d 1000000000)) 1000000000)

/-- Truncation of a rational toward zero. -/
def ratTrunc (x : ℚ) : Int := if x < 0 then -⌊-x⌋ else ⌊x⌋

/-- Go conversion `uint64(x)` of a `float64` value: the fraction is
discarded (truncation toward zero); when the truncated value cannot be
represented in `uint64` the Go spec makes the result
implementation-specific, supplied here by the platform's `oob`. -/
def goU64ofF64 (oob : ℚ → Nat) (x : ℚ) : Nat :=
  let t := ratTrunc x
  if 0 ≤ t ∧ t < (U64 : Int) then t.toNat else oob x

/-! ## Data model (`internal/metrics`, type declarations) -/

/-- Struct `MemoryStat` from `internal/metrics`. -/
structure MemoryStat where
  total : Nat
  free : Nat
  used : Nat
  usedPercentage : ℚ
deriving DecidableEq

/-- Struct `DiskStat` from `internal/metrics`. -/
structure DiskStat where
  path : String
  total : Nat
  used : Nat
  free : Nat
  usedPercentage : ℚ
deriving DecidableEq

/-- Struct `NetworkStat` from `internal/metrics`. -/
structure NetworkStat where
  interface : String
  rxBytes : Nat
  txBytes : Nat
  rxPackets : Nat
  txPackets : Nat
deriving DecidableEq

/-- Struct `GoRuntimeStat` from `internal/metrics`. -/
structure GoRuntimeStat where
  numGoroutine : Int
  memAlloc : Nat
  memSys : Nat
  numGC : Nat
  pauseTotalNs : Nat
deriving DecidableEq

/-- Struct `Metric` from `internal/metrics`: one snapshot of system metrics. -/
structure Metric where
  timestamp : Int
  cpu : List ℚ
  memory : MemoryStat
  disk : List DiskStat
  network : List NetworkStat
  goRuntime : GoRuntimeStat
deriving DecidableEq

/-- The `gopsutil` struct `net.IOCountersStat`: cumulative per-interface counters. -/
structure IOCountersStat where
  name : String
  bytesRecv : Nat
  bytesSent : Nat
  packetsRecv : Nat
  packetsSent : Nat
deriving DecidableEq

/-! ## Sampler lifecycle (`SystemCollector.Start`) -/

/-- The interval actually used by `SystemCollector.Start`: a non-positive
argument is clamped to `100 * time.Millisecond` (source lines 333-335). -/
def startEffectiveInterval (interval : Int) : Int :=
  if interval ≤ 0 then ms100 else interval

/-- The lifecycle-relevant state of a `SystemCollector` together with an
instrumentation counter: `spawned` counts the background sampling
goroutines ever created, `tickInterval` is the ticker interval of the
running sampling loop (if any). -/
structure CollectorLifecycle where
  running : Bool
  spawned : Nat
  tickInterval : Option Int
deriving DecidableEq

/-- One call of `SystemCollector.Start(interval, _)` (source lines 327-353):
a no-op when already running, otherwise clamps the interval and spawns
exactly one background sampling goroutine. -/
def startCall (c : CollectorLifecycle) (interval : Int) : CollectorLifecycle :=
  if c.running then c
  else
    { running := true
      spawned := c.spawned + 1
      tickInterval := some (startEffectiveInterval interval) }

/-- A sequence of `Start` calls, in order. -/
def startCalls (c : CollectorLifecycle) (intervals : List Int) : CollectorLifecycle :=
  intervals.foldl startCall c

/-! ## The interval driving the tick loop when the monitor runs

`core.RunMonitor` converts the configured `RefreshInterval` (seconds) to a
duration and passes it to `UI.Start`; `UI.Start` ignores its
`refreshInterval` parameter and starts the collector with a fixed
`100 * time.Millisecond` (monitor.go line 119, comment: "fixed 100ms
interval for smoother updates"). -/

/-- The interval `UI.Start` passes to `Collector.Start` (monitor.go
line 119): the `refreshInterval` parameter is not used. -/
def uiStartCollectorInterval (refreshInterval : Int) : Int :=
  ms100

/-- The ticker interval of the sampling loop after
`RunMonitor {RefreshInterval := cfgSeconds}`: `RunMonitor` builds
`time.Duration(cfg.RefreshInterval) * time.Second`, hands it to `UI.Start`,
which hands its fixed choice to `SystemCollector.Start`. -/
def runMonitorTickInterval (cfgRefreshSeconds : Int) : Int :=
  startEffectiveInterval (uiStartCollectorInterval (cfgRefreshSeconds * secondNs))

/-! ## Network rate computation (`SystemCollector.collectNetworkMetrics`) -/

/-- The rate-relevant mutable state of a `SystemCollector` —
`prevNetStats` (a Go map from interface name to the previous cumulative
counters) and `prevTime` (the previous reading's timestamp) — together
with `oobConv`, the platform's implementation-specific result of a
float64-to-uint64 conversion whose value is out of `uint64` range (a fixed
property of the platform the collector runs on; the code never writes
it and no theorem depends on its value). -/
structure NetState where
  prevNetStats : String → Option IOCountersStat
  prevTime : Int
  oobConv : ℚ → Nat

/-- Insert into the Go map `prevNetStats` (`c.prevNetStats[name] = counter`). -/
def mapInsert (m : String → Option IOCountersStat) (c : IOCountersStat) :
    String → Option IOCountersStat :=
  fun k => if k = c.name then some c else m k

/-- One published rate, exactly as the source computes it:
`uint64(float64(counter.X - prev.X) / timeDiff)` — wrapping `uint64`
subtraction, conversion of the delta to `float64` (round to nearest,
ties to even), IEEE-754 binary64 division by the already-rounded
`float64` elapsed seconds, and Go's truncating `uint64` conversion
(implementation-specific out of range, supplied by `oob`). -/
def rateOf (oob : ℚ → Nat) (curr prev : Nat) (timeDiff : ℚ) : Nat :=
  goU64ofF64 oob (fdiv (roundF64 ((u64sub curr prev : Nat) : ℚ)) timeDiff)

/-- The body of the `for _, counter := range counters` loop of
`collectNetworkMetrics` for one counter: keeps the raw cumulative values
unless a previous reading for the same name exists and `timeDiff > 0`,
in which case all four fields become rates. -/
def netStatOfCounter (oob : ℚ → Nat) (m : String → Option IOCountersStat)
    (timeDiff : ℚ) (counter : IOCountersStat) : NetworkStat :=
  let raw : NetworkStat :=
    { interface := counter.name
      rxBytes := counter.bytesRecv
      txBytes := counter.bytesSent
      rxPackets := counter.packetsRecv
      txPackets := counter.packetsSent }
  match m counter.name with
  | some prev =>
      if 0 < timeDiff then
        { interface := counter.name
          rxBytes := rateOf oob counter.bytesRecv prev.bytesRecv timeDiff
          txBytes := rateOf oob counter.bytesSent prev.bytesSent timeDiff
          rxPackets := rateOf oob counter.packetsRecv prev.packetsRecv timeDiff
          txPackets := rateOf oob counter.packetsSent prev.packetsSent timeDiff }
      else raw
  | none => raw

/-- The `for` loop of `collectNetworkMetrics`: emits one `NetworkStat` per
counter in order, updating the `prevNetStats` map after each counter. -/
def netLoop (oob : ℚ → Nat) (m : String → Option IOCountersStat)
    (timeDiff : ℚ) :
    List IOCountersStat → List NetworkStat × (String → Option IOCountersStat)
  | [] => ([], m)
  | counter :: rest =>
      let stat := netStatOfCounter oob m timeDiff counter
      let r := netLoop oob (mapInsert m counter) timeDiff rest
      (stat :: r.1, r.2)

/-- Method `SystemCollector.collectNetworkMetrics` (source lines 414-449): on a
failed `net.IOCounters` read it returns the error with the state untouched;
otherwise it computes `timeDiff := currentTime.Sub(c.prevTime).Seconds()`
as a `float64`, builds per-interface stats against the stored previous
readings, and stores the current readings and time. -/
def collectNetworkMetrics (s : NetState) (currentTime : Int)
    (counters : Except String (List IOCountersStat)) :
    Except String (List NetworkStat) × NetState :=
  match counters with
  | .error e => (.error e, s)
  | .ok cs =>
      let timeDiff := goSeconds (currentTime - s.prevTime)
      let r := netLoop s.oobConv s.prevNetStats timeDiff cs
      (.ok r.1, { prevNetStats := r.2, prevTime := currentTime,
                  oobConv := s.oobConv })

/-! ## `SystemCollector.Collect` -/

/-- The `runtime.MemStats` fields read by `collectMemoryMetrics`. -/
structure RuntimeMemStats where
  sys : Nat
  heapIdle : Nat
  heapAlloc : Nat
deriving DecidableEq

/-- Function `collectCPUMetrics` (source lines 366-372): one placeholder entry per
logical CPU, so the length is always `runtime.NumCPU()`. -/
def collectCPUMetrics (numCPU : Nat) : List ℚ :=
  (List.range numCPU).map (Nat.cast : ℕ → ℚ)

/-- Function `collectMemoryMetrics` (source lines 375-385): percentage is
`HeapAlloc / Sys * 100` in `float64`, modelled as exact rationals. -/
def collectMemoryMetrics (ms : RuntimeMemStats) : MemoryStat :=
  { total := ms.sys
    free := ms.heapIdle
    used := ms.heapAlloc
    usedPercentage := (ms.heapAlloc : ℚ) / (ms.sys : ℚ) * 100 }

/-- The readings the external providers deliver for one tick, each metrics
category independently fallible, exactly as `Collect` consumes them. In
the current wrappers the CPU and memory reads never fail while disk and
network surface `gopsutil` errors; `Collect` checks all four. -/
structure ProviderReadings where
  cpu : Except String (List ℚ)
  memory : Except String MemoryStat
  disk : Except String (List DiskStat)
  netCounters : Except String (List IOCountersStat)
  goRuntime : GoRuntimeStat

/-- Whether an `Except` is the error case. -/
def isErr {ε α : Type} : Except ε α → Bool
  | .error _ => true
  | .ok _ => false

/-- Method `SystemCollector.Collect` (source lines 289-324): reads CPU, memory,
disk, network and runtime in that order, returning the first error
unchanged; only the network step touches the collector's state. -/
def collect (now : Int) (p : ProviderReadings) (s : NetState) :
    Except String Metric × NetState :=
  match p.cpu with
  | .error e => (.error e, s)
  | .ok cpu =>
    match p.memory with
    | .error e => (.error e, s)
    | .ok mem =>
      match p.disk with
      | .error e => (.error e, s)
      | .ok dsk =>
        match collectNetworkMetrics s now p.netCounters with
        | (.error e, s1) => (.error e, s1)
        | (.ok net, s1) =>
            (.ok { timestamp := now, cpu := cpu, memory := mem, disk := dsk,
                   network := net, goRuntime := p.goRuntime }, s1)

/-- The readings obtained from the real wrappers for a tick: CPU and memory
are computed by `collectCPUMetrics` / `collectMemoryMetrics` (which cannot
fail), disk and network come from `gopsutil` and may fail. -/
def systemReadings (numCPU : Nat) (ms : RuntimeMemStats)
    (diskRead : Except String (List DiskStat))
    (netRead : Except String (List IOCountersStat))
    (rt : GoRuntimeStat) : ProviderReadings :=
  { cpu := .ok (collectCPUMetrics numCPU)
    memory := .ok (collectMemoryMetrics ms)
    disk := diskRead
    netCounters := netRead
    goRuntime := rt }

/-- One iteration of the sampling loop's `<-ticker.C` case (source lines
343-347): publish the metric only when `Collect` succeeded. -/
def tickStep (t : Int) (p : ProviderReadings) (s : NetState)
    (published : List Metric) : NetState × List Metric :=
  match collect t p s with
  | (.ok m, s1) => (s1, published ++ [m])
  | (.error _, s1) => (s1, published)

/-- The sampling loop over a finite schedule of ticks, each with the
provider readings observed at that tick: a failed tick publishes nothing
and the loop proceeds to the next tick. -/
def runTicks : List (Int × ProviderReadings) → NetState → NetState × List Metric
  | [], s => (s, [])
  | (t, p) :: rest, s =>
      match collect t p s with
      | (.ok m, s1) =>
          let r := runTicks rest s1
          (r.1, m :: r.2)
      | (.error _, s1) => runTicks rest s1

/-! ## Interface ranking (`UI.renderMetrics`, monitor.go lines 206-233) -/

/-- The local `interfaceStats` record of `renderMetrics`: an interface name
with its `RxBytes + TxBytes` total (a `uint64` addition, hence mod `2^64`). -/
structure InterfaceStats where
  name : String
  totalBytes : Nat
deriving DecidableEq

/-- The slice built from the snapshot's network entries before sorting. -/
def toInterfaceStats (network : List NetworkStat) : List InterfaceStats :=
  network.map (fun n =>
    { name := n.interface, totalBytes := (n.rxBytes + n.txBytes) % U64 })

/-- The comparator the source hands to `sort.Slice`:
`netStats[i].totalBytes > netStats[j].totalBytes`. A slice is in sorted
order for it when every later element's total is `≤` every earlier one. -/
def descBySum (a b : InterfaceStats) : Prop := b.totalBytes ≤ a.totalBytes

/-- The contract of Go's `sort.Slice` with the source's comparator: the
result is some permutation of the input ordered descending by
`totalBytes`. `sort.Slice` is documented as NOT stable, so the relative
order of elements with equal totals is unspecified; this relation is the
complete documented behavior. -/
def sortSliceSpec (l out : List InterfaceStats) : Prop :=
  out.Perm l ∧ out.Sorted descBySum

/-- The top-3 name list `renderMetrics` stores in `ui.topInterfaces`,
relative to a sorted slice produced by `sort.Slice`. -/
def topInterfacesSpec (network : List NetworkStat) (result : List String) : Prop :=
  ∃ out, sortSliceSpec (toInterfaceStats network) out ∧
    result = (out.take 3).map (fun s => s.name)

/-- The spec-side definition ("sort descending by that sum, take the first
3 names, ties broken by original provider ordering (stable sort)"): a
stable descending sort. Stated with `List.insertionSort`, which keeps
equal-total entries in their input order. -/
def stableSortDesc (l : List InterfaceStats) : List InterfaceStats :=
  l.insertionSort (fun a b => b.totalBytes ≤ a.totalBytes)

/-- The spec-side ranking: first 3 names of the stable descending sort. -/
def stableRanking (network : List NetworkStat) : List String :=
  ((stableSortDesc (toInterfaceStats network)).take 3).map (fun s => s.name)

/-! ## Render Scheduler state (`UI`, monitor.go) -/

/-- The data the memory panel displays on a rewrite: used percentage, used
and total bytes, plus goroutine count and allocated bytes when the Go
runtime block is enabled (monitor.go lines 180-193). -/
structure MemPanelContent where
  usedPercentage : ℚ
  used : Nat
  total : Nat
  goRuntimeBlock : Option (Int × Nat)
deriving DecidableEq

/-- The memory panel content written for a snapshot. -/
def mkMemPanel (metric : Metric) (showGoRuntime : Bool) : MemPanelContent :=
  { usedPercentage := metric.memory.usedPercentage
    used := metric.memory.used
    total := metric.memory.total
    goRuntimeBlock :=
      if showGoRuntime then
        some (metric.goRuntime.numGoroutine, metric.goRuntime.memAlloc)
      else none }

/-- The `netMap` lookup table of `renderMetrics` (monitor.go lines
240-243): a Go map from interface name to its stats, later entries
overwriting earlier ones. -/
def netMap (network : List NetworkStat) : String → Option NetworkStat :=
  network.foldl (fun m n => fun k => if k = n.interface then some n else m k)
    (fun _ => none)

/-- The rendering-relevant state of a `UI` value: the content of each
panel, the per-panel last-render instants and the ranking cache. -/
structure UIState where
  cpuContent : List ℚ
  memoryContent : Option MemPanelContent
  diskContent : List DiskStat
  networkContent : Option (List NetworkStat)
  lastMemoryUpdate : Int
  lastNetworkUpdate : Int
  lastInterfaceUpdate : Int
  topInterfaces : List String
  showGoRuntime : Bool

/-- Method `UI.renderMetrics` (monitor.go lines 151-309) as a state transition at
instant `now` (the source's several `time.Now()` calls within one render
are identified). `sortImpl` stands for the concrete `sort.Slice`
implementation. In source order: the CPU view always rewrites; the memory
view rewrites only when at least 5 s have passed since its last rewrite;
the disk view always rewrites; the top-interface ranking recomputes only
after 30 s; the network view rewrites only after 5 s, showing the cached
top interfaces looked up in the current snapshot. -/
def renderMetrics (sortImpl : List InterfaceStats → List InterfaceStats)
    (now : Int) (metric : Metric) (ui : UIState) : UIState :=
  let ui1 := { ui with cpuContent := metric.cpu }
  let ui2 :=
    if fiveSecondsNs ≤ now - ui1.lastMemoryUpdate then
      { ui1 with
        memoryContent := some (mkMemPanel metric ui1.showGoRuntime)
        lastMemoryUpdate := now }
    else ui1
  let ui3 := { ui2 with diskContent := metric.disk }
  let ui4 :=
    if thirtySecondsNs ≤ now - ui3.lastInterfaceUpdate then
      { ui3 with
        topInterfaces :=
          ((sortImpl (toInterfaceStats metric.network)).take 3).map
            (fun s => s.name)
        lastInterfaceUpdate := now }
    else ui3
  if fiveSecondsNs ≤ now - ui4.lastNetworkUpdate then
    { ui4 with
      networkContent := some (ui4.topInterfaces.filterMap (netMap metric.network))
      lastNetworkUpdate := now }
  else ui4

/-! ## Stop / shutdown lifecycle (`SystemCollector.Stop`, `UI.Stop`)

A small-step interleaving model of the two concurrent contexts relevant to
shutdown: the background sampling goroutine (spawned by
`SystemCollector.Start`, source lines 338-352) and the thread executing
`UI.Stop` (monitor.go lines 129-133), which calls `SystemCollector.Stop`
(source lines 356-363) and then closes the metrics channel. `stopChan` is
unbuffered, so `Stop`'s send `c.stopChan <- struct{}{}` completes only by
rendezvous with the goroutine's `case <-c.stopChan`, which the goroutine
reaches only at its `select` (modelled as the `waiting` state). -/

/-- The sampling goroutine's position: at the `select` (`waiting`), inside
the ticker case collecting/publishing (`collecting`), or returned (`done`). -/
inductive GorState
  | waiting
  | collecting
  | done
deriving DecidableEq

/-- Progress of the stopping thread through `UI.Stop`: before the
rendezvous send in `SystemCollector.Stop` (`beforeSend`), send completed
(`sent`), `SystemCollector.Stop` returned (`returned`), and
`close(ui.metricsChan)` executed (`chanClosed`). -/
inductive StopperState
  | beforeSend
  | sent
  | returned
  | chanClosed
deriving DecidableEq

/-- A global state of the shutdown interleaving: the goroutine position,
the stopper position, the list of metrics published into the channel so
far, and whether the metrics channel has been closed. -/
structure SysState where
  gor : GorState
  stopper : StopperState
  published : List Metric
  metricsChanClosed : Bool

/-- One interleaved step of the goroutine or the stopping thread. The
`select` chooses nondeterministically between a ready ticker and a pending
stop send, so from `waiting`/`beforeSend` both `tickFire` and `handshake`
are enabled. -/
inductive Step : SysState → SysState → Prop
  | tickFire (s : SysState) (h : s.gor = .waiting) :
      Step s { s with gor := .collecting }
  | publish (s : SysState) (m : Metric) (h : s.gor = .collecting) :
      Step s { s with gor := .waiting, published := s.published ++ [m] }
  | collectFail (s : SysState) (h : s.gor = .collecting) :
      Step s { s with gor := .waiting }
  | handshake (s : SysState) (hg : s.gor = .waiting)
      (hs : s.stopper = .beforeSend) :
      Step s { s with gor := .done, stopper := .sent }
  | stopFinish (s : SysState) (hs : s.stopper = .sent) :
      Step s { s with stopper := .returned }
  | uiClose (s : SysState) (hs : s.stopper = .returned) :
      Step s { s with stopper := .chanClosed, metricsChanClosed := true }

/-- Zero or more interleaved steps. -/
abbrev Steps : SysState → SysState → Prop := Relation.ReflTransGen Step

/-- Predicate: `UI.Stop` has been entered but the rendezvous has not yet happened. -/
def StopInit (s : SysState) : Prop := s.stopper = .beforeSend

/-- Predicate: `SystemCollector.Stop` has returned (and possibly the channel close
also ran). -/
def StopReturned (s : SysState) : Prop :=
  s.stopper = .returned ∨ s.stopper = .chanClosed

/-- What a Go channel receive observes. -/
inductive RecvResult
  | item (m : Metric)
  | closedSignal
  | wouldBlock
deriving DecidableEq

/-- Go receive semantics on a buffered channel: an available item first;
on an empty buffer, a closed channel reports end-of-stream immediately
while an open one blocks. -/
def chanRecv (buf : List Metric) (closed : Bool) : RecvResult :=
  match buf with
  | m :: _ => .item m
  | [] => if closed then .closedSignal else .wouldBlock

instance : DecidableRel descBySum :=
  fun a b => inferInstanceAs (Decidable (b.totalBytes ≤ a.totalBytes))

instance : IsTotal InterfaceStats descBySum :=
  ⟨fun a b => (Nat.le_total b.totalBytes a.totalBytes).imp id id⟩

instance : IsTrans InterfaceStats descBySum :=
  ⟨fun _ _ _ hab hbc => le_trans hbc hab⟩

/-! ## Concrete inputs used to evaluate the definitions -/

/-- A collector state with no previous network readings, on a platform
whose out-of-range conversions yield 0. -/
def emptyNetState : NetState :=
  { prevNetStats := fun _ => none, prevTime := 0, oobConv := fun _ => 0 }

/-- A zero runtime reading. -/
def zeroRuntime : GoRuntimeStat := ⟨0, 0, 0, 0, 0⟩

/-- Provider readings for a tick whose disk read failed. -/
def badDiskReadings : ProviderReadings :=
  { cpu := .ok []
    memory := .ok ⟨16, 8, 8, 50⟩
    disk := .error "disk read failed"
    netCounters := .ok []
    goRuntime := zeroRuntime }

/-- A `runtime.MemStats` reading with `Sys = 16`, `HeapAlloc = 8`. -/
def memStats16 : RuntimeMemStats := ⟨16, 8, 8⟩

/-- The metric `Collect` assembles from `memStats16` on a 2-CPU host with
empty disk and network readings at instant 0. -/
def okMetric16 : Metric :=
  { timestamp := 0
    cpu := collectCPUMetrics 2
    memory := collectMemoryMetrics memStats16
    disk := []
    network := []
    goRuntime := zeroRuntime }

/-- A stored previous reading for interface eth0: 2048 cumulative rx
bytes. The gap of 2048 makes the wrapped delta `2^64 - 2048` exactly
representable as a binary64 value, so every float64 operation on the
counterexample is exact on every platform. -/
def ethPrev : IOCountersStat := ⟨"eth0", 2048, 0, 0, 0⟩

/-- Collector state that has observed `ethPrev` at instant 0, on a
platform whose out-of-range conversions yield 0 (no theorem depends on
that choice: the counterexample stays in `uint64` range). -/
def ethState : NetState :=
  { prevNetStats := fun k => if k = "eth0" then some ethPrev else none
    prevTime := 0
    oobConv := fun _ => 0 }

/-- A current reading for eth0 whose cumulative counter went backwards
(0 < 2048): the provider-anomaly case the spec says is clamped to 0. -/
def ethCounter : IOCountersStat := ⟨"eth0", 0, 0, 0, 0⟩

/-- The spec's ranking example: entries with rx+tx sums
A=300, B=500, C=100, D=500, in that provider order. -/
def exNetwork : List NetworkStat :=
  [⟨"A", 300, 0, 0, 0⟩, ⟨"B", 500, 0, 0, 0⟩, ⟨"C", 100, 0, 0, 0⟩,
   ⟨"D", 500, 0, 0, 0⟩]

/-- A descending ordering of `exNetwork`'s entries that a non-stable sort
may produce: the tied entries D and B appear in swapped order. -/
def exSorted : List InterfaceStats :=
  [⟨"D", 500⟩, ⟨"B", 500⟩, ⟨"A", 300⟩, ⟨"C", 100⟩]

/-- Shutdown interleaving states of a concrete stop trace. -/
def w0 : SysState := ⟨.waiting, .beforeSend, [], false⟩

/-- After the stop rendezvous. -/
def w1 : SysState := ⟨.done, .sent, [], false⟩

/-- After `SystemCollector.Stop` returned. -/
def w2 : SysState := ⟨.done, .returned, [], false⟩

/-- After `UI.Stop` closed the metrics channel. -/
def w3 : SysState := ⟨.done, .chanClosed, [], true⟩

/-! ## Helper lemmas -/

/-- Once the collector is running, every further `Start` call is the
identity. -/
theorem startCalls_of_running (c : CollectorLifecycle) (h : c.running = true) :
    ∀ intervals, startCalls c intervals = c := by
  intro intervals
  induction intervals with
  | nil => rfl
  | cons i rest ih =>
      have hc : startCall c i = c := by simp [startCall, h]
      simpa [startCalls, hc] using ih

/-! ## Claims -/

/-- C4, counterexample: with a configured sampling interval of 2 seconds
(a positive duration), the ticker interval of the sampling loop is 100 ms,
not the configured 2 s: `UI.Start` discards its `refreshInterval`
argument. -/
theorem configured_interval_not_used_cex :
    (0 : Int) < 2 ∧
      runMonitorTickInterval 2 = ms100 ∧
      runMonitorTickInterval 2 ≠ 2 * secondNs := by
  refine ⟨by norm_num, ?_, ?_⟩ <;>
    norm_num [runMonitorTickInterval, startEffectiveInterval,
      uiStartCollectorInterval, ms100, secondNs]

/-- C4, amended: whatever sampling interval is configured, the sampling
loop started by `RunMonitor` ticks at the fixed 100 ms interval hardcoded
in `UI.Start`. -/
theorem tick_interval_always_100ms (cfgRefreshSeconds : Int) :
    runMonitorTickInterval cfgRefreshSeconds = ms100 := by
  norm_num [runMonitorTickInterval, startEffectiveInterval,
    uiStartCollectorInterval, ms100]

/-- C8: for a non-positive interval argument, `Start` on a non-running
collector does not fail: it proceeds, spawning the sampling goroutine with
the interval clamped to the safe minimum of 100 ms. -/
theorem start_clamps_nonpositive_interval (c : CollectorLifecycle)
    (interval : Int) (hneg : interval ≤ 0) (hnr : c.running = false) :
    startCall c interval =
      { running := true, spawned := c.spawned + 1, tickInterval := some ms100 } := by
  simp [startCall, hnr, startEffectiveInterval, hneg]

/-- C8 witness: `Start` with interval `-5` ns on a fresh collector runs
with the 100 ms clamp. -/
theorem start_clamps_nonpositive_interval_witness :
    (-5 : Int) ≤ 0 ∧
      startCall ⟨false, 0, none⟩ (-5) = ⟨true, 1, some ms100⟩ :=
  ⟨by norm_num,
    start_clamps_nonpositive_interval ⟨false, 0, none⟩ (-5) (by norm_num) rfl⟩

/-- C9: calling `Start` on a running collector is the identity, and any
non-empty sequence of `Start` calls on a fresh collector leaves it running
with exactly one spawned sampling goroutine (no duplicate publishing
loop). -/
theorem start_idempotent_single_task :
    (∀ (c : CollectorLifecycle) (i : Int), c.running = true → startCall c i = c) ∧
      ∀ (c : CollectorLifecycle) (intervals : List Int),
        c.running = false → intervals ≠ [] →
          (startCalls c intervals).spawned = c.spawned + 1 ∧
            (startCalls c intervals).running = true := by
  constructor
  · intro c i h
    simp [startCall, h]
  · intro c intervals hnr hne
    cases intervals with
    | nil => exact absurd rfl hne
    | cons i rest =>
        have h1 : startCall c i =
            { running := true, spawned := c.spawned + 1,
              tickInterval := some (startEffectiveInterval i) } := by
          simp [startCall, hnr]
        have h2 : startCalls c (i :: rest) = startCall c i := by
          have := startCalls_of_running (startCall c i) (by simp [h1]) rest
          simpa [startCalls] using this
        simp [h2, h1]

/-- C9 witness: two `Start` calls on a fresh collector spawn exactly one
sampling goroutine, and a `Start` on a running collector changes nothing. -/
theorem start_idempotent_single_task_witness :
    (CollectorLifecycle.running ⟨true, 1, some ms100⟩ = true ∧
      startCall ⟨true, 1, some ms100⟩ 7 = ⟨true, 1, some ms100⟩) ∧
    (CollectorLifecycle.running ⟨false, 0, none⟩ = false ∧ ([5, 7] : List Int) ≠ [] ∧
      (startCalls ⟨false, 0, none⟩ [5, 7]).spawned = 1 ∧
      (startCalls ⟨false, 0, none⟩ [5, 7]).running = true) :=
  ⟨⟨rfl, start_idempotent_single_task.1 ⟨true, 1, some ms100⟩ 7 rfl⟩,
   ⟨rfl, by simp,
    (start_idempotent_single_task.2 ⟨false, 0, none⟩ [5, 7] rfl (by simp)).1,
    (start_idempotent_single_task.2 ⟨false, 0, none⟩ [5, 7] rfl (by simp)).2⟩⟩

/-- C10: whenever `Collect` returns an error, the collector's stored
previous network readings and previous-reading timestamp are exactly what
they were before the call (error atomicity of `Collect`). -/
theorem collect_error_atomicity (now : Int) (p : ProviderReadings)
    (s : NetState) (h : isErr (collect now p s).1 = true) :
    (collect now p s).2 = s := by
  rcases hc : p.cpu with e | cpu
  · simp [collect, hc]
  · rcases hm : p.memory with e | mem
    · simp [collect, hc, hm]
    · rcases hd : p.disk with e | dsk
      · simp [collect, hc, hm, hd]
      · rcases hn : p.netCounters with e | cs
        · simp [collect, hc, hm, hd, hn, collectNetworkMetrics]
        · exfalso
          simp [collect, hc, hm, hd, hn, collectNetworkMetrics, isErr] at h

/-- C10 witness: a tick whose disk read fails reports the error and leaves
the network-rate state untouched. -/
theorem collect_error_atomicity_witness :
    isErr (collect 0 badDiskReadings ethState).1 = true ∧
      (collect 0 badDiskReadings ethState).2 = ethState :=
  ⟨rfl, collect_error_atomicity 0 badDiskReadings ethState rfl⟩

/-- When any category read fails, `collect` returns that error with the
state untouched. -/
theorem collect_of_read_failure (t : Int) (p : ProviderReadings) (s : NetState)
    (h : isErr p.cpu = true ∨ isErr p.memory = true ∨ isErr p.disk = true ∨
      isErr p.netCounters = true) :
    ∃ e, collect t p s = (.error e, s) := by
  rcases hc : p.cpu with e | cpu
  · exact ⟨e, by simp [collect, hc]⟩
  · rcases hm : p.memory with e | mem
    · exact ⟨e, by simp [collect, hc, hm]⟩
    · rcases hd : p.disk with e | dsk
      · exact ⟨e, by simp [collect, hc, hm, hd]⟩
      · rcases hn : p.netCounters with e | cs
        · exact ⟨e, by simp [collect, hc, hm, hd, hn, collectNetworkMetrics]⟩
        · simp [hc, hm, hd, hn, isErr] at h

/-- C5: if any single metrics category read (CPU, memory, disk or network)
fails for a tick, `Collect` returns an error, the sampling loop publishes
no snapshot at all for that tick, and the loop goes on to process the
remaining scheduled ticks exactly as if the failed tick had not happened. -/
theorem failed_category_discards_tick (t : Int) (p : ProviderReadings)
    (s : NetState)
    (h : isErr p.cpu = true ∨ isErr p.memory = true ∨ isErr p.disk = true ∨
      isErr p.netCounters = true)
    (rest : List (Int × ProviderReadings)) (published : List Metric) :
    isErr (collect t p s).1 = true ∧
      (tickStep t p s published).2 = published ∧
      runTicks ((t, p) :: rest) s = runTicks rest s := by
  obtain ⟨e, hcol⟩ := collect_of_read_failure t p s h
  refine ⟨?_, ?_, ?_⟩
  · rw [hcol]
    rfl
  · simp [tickStep, hcol]
  · simp [runTicks, hcol]

/-- C5 witness: a tick with a failed disk read publishes nothing and the
loop continues with the remaining ticks. -/
theorem failed_category_discards_tick_witness :
    isErr badDiskReadings.disk = true ∧
      isErr (collect 0 badDiskReadings emptyNetState).1 = true ∧
      (tickStep 0 badDiskReadings emptyNetState []).2 = [] ∧
      runTicks [(0, badDiskReadings)] emptyNetState = runTicks [] emptyNetState :=
  ⟨rfl,
    failed_category_discards_tick 0 badDiskReadings emptyNetState
      (Or.inr (Or.inr (Or.inl rfl))) [] []⟩

/-- C7: every snapshot `Collect` assembles from the system wrappers has a
cpu sequence of length `runtime.NumCPU()`, and — given the Go runtime's
accounting invariant `HeapAlloc ≤ Sys` with `Sys` positive — a memory
used-percentage within [0, 100]. -/
theorem collect_cpu_length_memory_percentage (now : Int) (numCPU : Nat)
    (ms : RuntimeMemStats) (diskRead : Except String (List DiskStat))
    (netRead : Except String (List IOCountersStat)) (rt : GoRuntimeStat)
    (s : NetState) (m : Metric)
    (hused : ms.heapAlloc ≤ ms.sys) (hpos : 0 < ms.sys)
    (hm : (collect now (systemReadings numCPU ms diskRead netRead rt) s).1 = .ok m) :
    m.cpu.length = numCPU ∧
      0 ≤ m.memory.usedPercentage ∧ m.memory.usedPercentage ≤ 100 := by
  have hsys : (0 : ℚ) < (ms.sys : ℚ) := by exact_mod_cast hpos
  have hle : (ms.heapAlloc : ℚ) ≤ (ms.sys : ℚ) := by exact_mod_cast hused
  have hcpu : m.cpu = collectCPUMetrics numCPU ∧ m.memory = collectMemoryMetrics ms := by
    rcases hd : diskRead with e | dsk
    · simp [collect, systemReadings, hd] at hm
    · rcases hn : netRead with e | cs
      · simp [collect, systemReadings, hd, hn, collectNetworkMetrics] at hm
      · simp [collect, systemReadings, hd, hn, collectNetworkMetrics] at hm
        simp [← hm]
  obtain ⟨hc, hmem⟩ := hcpu
  refine ⟨?_, ?_, ?_⟩
  · rw [hc, collectCPUMetrics, List.length_map, List.length_range]
  · rw [hmem]
    simp only [collectMemoryMetrics]
    positivity
  · rw [hmem]
    simp only [collectMemoryMetrics]
    have h1 : (ms.heapAlloc : ℚ) / (ms.sys : ℚ) ≤ 1 := by
      rw [div_le_one hsys]
      exact hle
    calc (ms.heapAlloc : ℚ) / (ms.sys : ℚ) * 100 ≤ 1 * 100 := by
          exact mul_le_mul_of_nonneg_right h1 (by norm_num)
      _ = 100 := by norm_num

/-- C7 witness: a snapshot collected on a 2-CPU host with `Sys = 16`,
`HeapAlloc = 8` has two cpu entries and a used-percentage of 50, inside
[0, 100]. -/
theorem collect_cpu_length_memory_percentage_witness :
    memStats16.heapAlloc ≤ memStats16.sys ∧ 0 < memStats16.sys ∧
      (collect 0 (systemReadings 2 memStats16 (.ok []) (.ok []) zeroRuntime)
          emptyNetState).1 = .ok okMetric16 ∧
      (okMetric16.cpu.length = 2 ∧
        0 ≤ okMetric16.memory.usedPercentage ∧
        okMetric16.memory.usedPercentage ≤ 100) :=
  ⟨by norm_num [memStats16], by norm_num [memStats16], rfl,
    collect_cpu_length_memory_percentage 0 2 memStats16 (.ok []) (.ok [])
      zeroRuntime emptyNetState okMetric16 (by norm_num [memStats16])
      (by norm_num [memStats16]) rfl⟩

/-- Rounding the exactly representable value `2^64 - 2048`
(mantissa `2^53 - 1`, exponent 11) is the identity. -/
theorem roundF64_wrapGap : roundF64 (18446744073709549568 : ℚ) = 18446744073709549568 := by
  have hlog : log2floor (18446744073709549568 : ℚ) = 63 := by
    rw [log2floor, if_pos (by norm_num)]
    norm_num
    exact_mod_cast (by decide : natLog2 18446744073709549568 = 63)
  rw [roundF64, if_neg (by norm_num)]
  rw [hlog]
  norm_num

/-- Rounding 1 is the identity. -/
theorem roundF64_one : roundF64 (1 : ℚ) = 1 := by
  have hlog : log2floor (1 : ℚ) = 0 := by
    rw [log2floor, if_pos (by norm_num)]
    norm_num
    decide
  rw [roundF64, if_neg (by norm_num)]
  rw [hlog]
  norm_num

/-- Rounding 0 yields 0. -/
theorem roundF64_zero : roundF64 (0 : ℚ) = 0 := by
  rw [roundF64, if_pos le_rfl]

/-- Go's `Seconds()` of a duration of exactly one second is exactly 1.0:
`1e9 / 1e9 = 1` and `1e9 % 1e9 = 0`, and every rounding is exact. -/
theorem goSeconds_oneSecond : goSeconds 1000000000 = 1 := by
  rw [goSeconds]
  norm_num [Int.tdiv, Int.tmod]
  rw [f64ofInt, f64ofInt]
  norm_num [f64round, roundF64_zero, roundF64_one]
  rw [fdiv, fadd]
  norm_num [f64round, roundF64_zero, roundF64_one]

/-- The rate the source publishes for current counter 0, previous counter
2048, over exactly one second: the `uint64` delta wraps to `2^64 - 2048`,
which converts to `float64` exactly, divides by 1.0 exactly, and lies in
`uint64` range, so every platform publishes `2^64 - 2048`. -/
theorem rateOf_wrapGap_eval (oob : ℚ → Nat) :
    rateOf oob 0 2048 1 = 18446744073709549568 := by
  have hsub : u64sub 0 2048 = 18446744073709549568 := by norm_num [u64sub, U64]
  rw [rateOf, hsub]
  have hcast : ((18446744073709549568 : Nat) : ℚ) = (18446744073709549568 : ℚ) := by
    norm_num
  rw [hcast, roundF64_wrapGap, fdiv]
  norm_num [f64round, roundF64_wrapGap]
  rw [goU64ofF64]
  norm_num [ratTrunc, U64]
  rfl

/-- The rate for an unchanged counter over one second is 0. -/
theorem rateOf_zero_eval (oob : ℚ → Nat) : rateOf oob 0 0 1 = 0 := by
  have hsub : u64sub 0 0 = 0 := by norm_num [u64sub, U64]
  rw [rateOf, hsub]
  norm_num [roundF64_zero, fdiv, f64round, goU64ofF64, ratTrunc, U64]

/-- C2, counterexample: for interface eth0 with stored previous cumulative
reading 2048 and current reading 0 (a negative delta) exactly one second
later, the published rate is the `uint64`-wrapped value `2^64 - 2048`,
not 0: the source subtracts with wrapping `uint64` arithmetic and never
clamps. On these values every `float64` operation is exact (the wrapped
delta is a representable double, the elapsed time is exactly 1.0) and the
final conversion is in `uint64` range, so the result is the same on every
Go implementation. -/
theorem negative_delta_not_clamped_cex :
    ethCounter.bytesRecv < ethPrev.bytesRecv ∧
      (collectNetworkMetrics ethState secondNs (.ok [ethCounter])).1 =
        .ok [{ interface := "eth0", rxBytes := 18446744073709549568,
               txBytes := 0, rxPackets := 0, txPackets := 0 }] ∧
      (18446744073709549568 : Nat) ≠ 0 := by
  refine ⟨by norm_num [ethCounter, ethPrev], ?_, by norm_num⟩
  have hsec : goSeconds secondNs = 1 := goSeconds_oneSecond
  simp only [collectNetworkMetrics, netLoop, netStatOfCounter,
    ethState, ethCounter, ethPrev]
  norm_num [hsec, rateOf_wrapGap_eval, rateOf_zero_eval]

/-- C2, amended: for an interface with a stored previous reading and a
positive elapsed time, each published figure is
`uint64(float64((curr - prev) mod 2^64) / elapsed)` computed exactly as
the source does — wrapping `uint64` subtraction, IEEE-754 binary64
conversion and division, Go's `Duration.Seconds()` for the elapsed time,
and the truncating (implementation-specific when out of `uint64` range)
conversion back — so a current counter smaller than the previous one
yields the wrapped huge delta rather than a clamped 0; the reading
timestamp advances to the current instant. -/
theorem network_rate_formula_wrapped (s : NetState) (now : Int)
    (counter : IOCountersStat) (rest : List IOCountersStat)
    (prev : IOCountersStat)
    (hprev : s.prevNetStats counter.name = some prev)
    (hpos : 0 < goSeconds (now - s.prevTime)) :
    (collectNetworkMetrics s now (.ok (counter :: rest))).1 =
      .ok ({ interface := counter.name
             rxBytes := rateOf s.oobConv counter.bytesRecv prev.bytesRecv
               (goSeconds (now - s.prevTime))
             txBytes := rateOf s.oobConv counter.bytesSent prev.bytesSent
               (goSeconds (now - s.prevTime))
             rxPackets := rateOf s.oobConv counter.packetsRecv prev.packetsRecv
               (goSeconds (now - s.prevTime))
             txPackets := rateOf s.oobConv counter.packetsSent prev.packetsSent
               (goSeconds (now - s.prevTime)) } ::
           (netLoop s.oobConv (mapInsert s.prevNetStats counter)
             (goSeconds (now - s.prevTime)) rest).1) ∧
      (collectNetworkMetrics s now (.ok (counter :: rest))).2.prevTime = now := by
  constructor
  · simp [collectNetworkMetrics, netLoop, netStatOfCounter, hprev, hpos]
  · simp [collectNetworkMetrics]

/-- C2 witness: the amended formula evaluated at the eth0 reading used in
the counterexample. -/
theorem network_rate_formula_wrapped_witness :
    ethState.prevNetStats ethCounter.name = some ethPrev ∧
      0 < goSeconds (secondNs - ethState.prevTime) ∧
      ((collectNetworkMetrics ethState secondNs (.ok [ethCounter])).1 =
        .ok ({ interface := ethCounter.name
               rxBytes := rateOf ethState.oobConv ethCounter.bytesRecv
                 ethPrev.bytesRecv (goSeconds (secondNs - ethState.prevTime))
               txBytes := rateOf ethState.oobConv ethCounter.bytesSent
                 ethPrev.bytesSent (goSeconds (secondNs - ethState.prevTime))
               rxPackets := rateOf ethState.oobConv ethCounter.packetsRecv
                 ethPrev.packetsRecv (goSeconds (secondNs - ethState.prevTime))
               txPackets := rateOf ethState.oobConv ethCounter.packetsSent
                 ethPrev.packetsSent (goSeconds (secondNs - ethState.prevTime)) } ::
             (netLoop ethState.oobConv (mapInsert ethState.prevNetStats ethCounter)
               (goSeconds (secondNs - ethState.prevTime)) []).1) ∧
        (collectNetworkMetrics ethState secondNs (.ok [ethCounter])).2.prevTime =
          secondNs) :=
  ⟨rfl,
    by
      rw [show secondNs - ethState.prevTime = 1000000000 from rfl,
        goSeconds_oneSecond]
      norm_num,
    network_rate_formula_wrapped ethState secondNs ethCounter [] ethPrev rfl
      (by
        rw [show secondNs - ethState.prevTime = 1000000000 from rfl,
          goSeconds_oneSecond]
        norm_num)⟩

/-- Any outcome of `sort.Slice` on the interface slice carries the same
descending totals sequence as the stable descending sort. -/
theorem sortSlice_totals_eq_stable (l out : List InterfaceStats)
    (h : sortSliceSpec l out) :
    out.map (fun s => s.totalBytes) =
      (stableSortDesc l).map (fun s => s.totalBytes) := by
  obtain ⟨hperm, hsorted⟩ := h
  have hperm2 : (out.map fun s => s.totalBytes).Perm
      ((stableSortDesc l).map fun s => s.totalBytes) :=
    (hperm.trans (List.perm_insertionSort descBySum l).symm).map _
  have hs1 : (out.map fun s => s.totalBytes).Sorted (fun x y : ℕ => y ≤ x) :=
    List.Pairwise.map _ (fun _ _ hab => hab) hsorted
  have hs2 : ((stableSortDesc l).map fun s => s.totalBytes).Sorted
      (fun x y : ℕ => y ≤ x) :=
    List.Pairwise.map _ (fun _ _ hab => hab)
      (List.sorted_insertionSort descBySum l)
  have : IsAntisymm ℕ (fun x y : ℕ => y ≤ x) := ⟨fun _ _ h1 h2 => le_antisymm h2 h1⟩
  exact List.eq_of_perm_of_sorted hperm2 hs1 hs2

/-- C3, counterexample: on the spec's own example (sums A=300, B=500,
C=100, D=500 in provider order), `[D, B, A, C]` is a valid `sort.Slice`
outcome — a permutation in descending order — whose first 3 names are
`[D, B, A]`, while the stable ranking is `[B, D, A]`: `sort.Slice` does
not guarantee that tied entries keep their provider order. -/
theorem ranking_sort_not_stable_cex :
    topInterfacesSpec exNetwork ["D", "B", "A"] ∧
      stableRanking exNetwork = ["B", "D", "A"] ∧
      (["D", "B", "A"] : List String) ≠ ["B", "D", "A"] := by
  refine ⟨⟨exSorted, ⟨?_, ?_⟩, rfl⟩, ?_, by decide⟩
  · decide
  · decide
  · decide

/-- C3, amended: the ranking computed on a refresh is the first 3 names of
some permutation of the network entries in descending order of
`(RxBytes + TxBytes) mod 2^64`; the sequence of traffic sums of the ranked
interfaces equals that of the stable descending sort, and every ranked
name is the name of an input entry, but entries with equal sums may appear
in either order (`sort.Slice` is not stable). -/
theorem ranking_top3_sums_determined (network : List NetworkStat)
    (out : List InterfaceStats)
    (h : sortSliceSpec (toInterfaceStats network) out) :
    ((out.take 3).map fun s => s.totalBytes) =
        (((stableSortDesc (toInterfaceStats network)).take 3).map
          fun s => s.totalBytes) ∧
      ∀ name ∈ (out.take 3).map fun s => s.name,
        name ∈ network.map fun n => n.interface := by
  constructor
  · have := sortSlice_totals_eq_stable (toInterfaceStats network) out h
    calc ((out.take 3).map fun s => s.totalBytes)
        = (out.map fun s => s.totalBytes).take 3 := List.map_take _ _ _
      _ = ((stableSortDesc (toInterfaceStats network)).map
            fun s => s.totalBytes).take 3 := by rw [this]
      _ = (((stableSortDesc (toInterfaceStats network)).take 3).map
            fun s => s.totalBytes) := (List.map_take _ _ _).symm
  · intro name hname
    obtain ⟨s, hs, rfl⟩ := List.mem_map.mp hname
    have hout : s ∈ out := List.mem_of_mem_take hs
    have hmem : s ∈ toInterfaceStats network := h.1.subset hout
    obtain ⟨n, hn, rfl⟩ := List.mem_map.mp hmem
    exact List.mem_map.mpr ⟨n, hn, rfl⟩

/-- C3 witness: the amended property evaluated at the spec's example with
the non-stable outcome `[D, B, A, C]`. -/
theorem ranking_top3_sums_determined_witness :
    sortSliceSpec (toInterfaceStats exNetwork) exSorted ∧
      (((exSorted.take 3).map fun s => s.totalBytes) =
          (((stableSortDesc (toInterfaceStats exNetwork)).take 3).map
            fun s => s.totalBytes) ∧
        ∀ name ∈ (exSorted.take 3).map fun s => s.name,
          name ∈ exNetwork.map fun n => n.interface) :=
  ⟨⟨by decide, by decide⟩,
    ranking_top3_sums_determined exNetwork exSorted ⟨by decide, by decide⟩⟩

/-- The per-panel effect of one `renderMetrics` pass: the CPU and disk
views always take the snapshot's data; the memory view and its timestamp
change exactly when at least 5 s have passed since the memory panel's last
rewrite. -/
theorem renderMetrics_components
    (sortImpl : List InterfaceStats → List InterfaceStats)
    (now : Int) (metric : Metric) (ui : UIState) :
    (renderMetrics sortImpl now metric ui).memoryContent =
        (if fiveSecondsNs ≤ now - ui.lastMemoryUpdate
          then some (mkMemPanel metric ui.showGoRuntime)
          else ui.memoryContent) ∧
      (renderMetrics sortImpl now metric ui).lastMemoryUpdate =
        (if fiveSecondsNs ≤ now - ui.lastMemoryUpdate
          then now else ui.lastMemoryUpdate) ∧
      (renderMetrics sortImpl now metric ui).cpuContent = metric.cpu ∧
      (renderMetrics sortImpl now metric ui).diskContent = metric.disk := by
  simp only [renderMetrics]
  split_ifs <;> simp_all

/-- C6: the memory panel's content is rewritten exactly when at least 5
seconds have elapsed since its last rewrite, while the CPU and disk panels
of the same snapshot render regardless; concretely, an attempt 4 s after
the last memory render leaves the memory panel untouched and an attempt
5.1 s after replaces it with the snapshot's data. -/
theorem memory_panel_throttle_iff :
    (∀ (sortImpl : List InterfaceStats → List InterfaceStats)
        (now : Int) (metric : Metric) (ui : UIState),
      (renderMetrics sortImpl now metric ui).memoryContent =
          (if fiveSecondsNs ≤ now - ui.lastMemoryUpdate
            then some (mkMemPanel metric ui.showGoRuntime)
            else ui.memoryContent) ∧
        (renderMetrics sortImpl now metric ui).cpuContent = metric.cpu ∧
        (renderMetrics sortImpl now metric ui).diskContent = metric.disk) ∧
      ∀ (sortImpl : List InterfaceStats → List InterfaceStats)
        (metric : Metric) (ui : UIState) (t0 : Int),
        (renderMetrics sortImpl (t0 + 4 * secondNs) metric
            { ui with lastMemoryUpdate := t0 }).memoryContent =
            ui.memoryContent ∧
          (renderMetrics sortImpl (t0 + 5100000000) metric
              { ui with lastMemoryUpdate := t0 }).memoryContent =
            some (mkMemPanel metric ui.showGoRuntime) := by
  constructor
  · intro sortImpl now metric ui
    obtain ⟨h1, _, h3, h4⟩ := renderMetrics_components sortImpl now metric ui
    exact ⟨h1, h3, h4⟩
  · intro sortImpl metric ui t0
    obtain ⟨h1, -, -, -⟩ :=
      renderMetrics_components sortImpl (t0 + 4 * secondNs) metric
        { ui with lastMemoryUpdate := t0 }
    obtain ⟨h2, -, -, -⟩ :=
      renderMetrics_components sortImpl (t0 + 5100000000) metric
        { ui with lastMemoryUpdate := t0 }
    constructor
    · rw [h1]
      norm_num [fiveSecondsNs, secondNs]
    · rw [h2]
      norm_num [fiveSecondsNs]

/-- Once the sampling goroutine has returned, every further step leaves it
returned and publishes nothing. -/
theorem step_done_quiesced (s s1 : SysState) (h : Step s s1)
    (hd : s.gor = .done) : s1.gor = .done ∧ s1.published = s.published := by
  cases h <;> simp_all

/-- Lemma `step_done_quiesced` extended along any number of steps. -/
theorem steps_done_quiesced (s s1 : SysState) (h : Steps s s1)
    (hd : s.gor = .done) : s1.gor = .done ∧ s1.published = s.published := by
  induction h with
  | refl => exact ⟨hd, rfl⟩
  | tail hab hbc ih =>
      obtain ⟨h1, h2⟩ := ih
      obtain ⟨h3, h4⟩ := step_done_quiesced _ _ hbc h1
      exact ⟨h3, h4.trans h2⟩

/-- One step preserves the invariant that a stopper at or past the
rendezvous implies the goroutine has returned. -/
theorem step_inv_handshake (s s1 : SysState) (h : Step s s1)
    (hi : s.stopper ≠ .beforeSend → s.gor = .done) :
    s1.stopper ≠ .beforeSend → s1.gor = .done := by
  cases h <;> simp_all

/-- Lemma `step_inv_handshake` extended along any number of steps. -/
theorem steps_inv_handshake (s s1 : SysState) (h : Steps s s1)
    (hi : s.stopper ≠ .beforeSend → s.gor = .done) :
    s1.stopper ≠ .beforeSend → s1.gor = .done := by
  induction h with
  | refl => exact hi
  | tail hab hbc ih => exact step_inv_handshake _ _ hbc ih

/-- One step preserves the invariant that a completed `UI.Stop` implies a
closed metrics channel. -/
theorem step_inv_closed (s s1 : SysState) (h : Step s s1)
    (hi : s.stopper = .chanClosed → s.metricsChanClosed = true) :
    s1.stopper = .chanClosed → s1.metricsChanClosed = true := by
  cases h <;> simp_all

/-- Lemma `step_inv_closed` extended along any number of steps. -/
theorem steps_inv_closed (s s1 : SysState) (h : Steps s s1)
    (hi : s.stopper = .chanClosed → s.metricsChanClosed = true) :
    s1.stopper = .chanClosed → s1.metricsChanClosed = true := by
  induction h with
  | refl => exact hi
  | tail hab hbc ih => exact step_inv_closed _ _ hbc ih

/-- C1: in every interleaving that starts with `UI.Stop` entered, once
`SystemCollector.Stop` has returned the sampling goroutine has already
returned, so no further snapshot is ever published into the metrics
channel; and once `UI.Stop` has finished, the channel is closed, so a
receive on the drained channel reports end-of-stream instead of
blocking. -/
theorem stop_quiesces_and_closes_channel (s0 s1 s2 : SysState)
    (hinit : StopInit s0) (h01 : Steps s0 s1) (hret : StopReturned s1)
    (h12 : Steps s1 s2) :
    s1.gor = .done ∧ s2.published = s1.published ∧
      (s1.stopper = .chanClosed →
        chanRecv [] s1.metricsChanClosed = .closedSignal) := by
  have hgd : s1.gor = .done := by
    refine steps_inv_handshake s0 s1 h01 ?_ ?_
    · intro hne
      exact absurd hinit hne
    · rcases hret with h | h <;> simp [h]
  have hpub := (steps_done_quiesced s1 s2 h12 hgd).2
  have hcl : s1.stopper = .chanClosed → s1.metricsChanClosed = true := by
    refine steps_inv_closed s0 s1 h01 ?_
    intro hc
    rw [hinit] at hc
    exact absurd hc (by simp)
  refine ⟨hgd, hpub, fun hc => ?_⟩
  rw [hcl hc]
  rfl

/-- C1 witness: the concrete stop trace rendezvous → `Stop` returns →
channel close satisfies the guarantee. -/
theorem stop_quiesces_and_closes_channel_witness :
    StopInit w0 ∧ StopReturned w3 ∧
      (w3.gor = .done ∧ w3.published = w3.published ∧
        (w3.stopper = .chanClosed →
          chanRecv [] w3.metricsChanClosed = .closedSignal)) := by
  have s01 : Step w0 w1 := Step.handshake w0 rfl rfl
  have s12 : Step w1 w2 := Step.stopFinish w1 rfl
  have s23 : Step w2 w3 := Step.uiClose w2 rfl
  have h03 : Steps w0 w3 :=
    Relation.ReflTransGen.tail
      (Relation.ReflTransGen.tail (Relation.ReflTransGen.single s01) s12) s23
  exact ⟨rfl, Or.inr rfl,
    stop_quiesces_and_closes_channel w0 w3 w3 rfl h03 (Or.inr rfl)
      Relation.ReflTransGen.refl⟩

end Godash
